import Mathlib

/-
Shallow embedding of the job-record parsing and report-rendering pipeline
of main.py (a scheduler-usage Slack bot).

Modelling conventions:
- Python str is Lean String.  The Python string primitives used by the
  code (str.strip, str.split with a one-character separator, str.upper)
  are implemented below over the character list of the string, following
  the Python semantics: split of the empty string yields a one-element
  list holding the empty string, strip removes leading and trailing
  whitespace, upper is the ASCII case map (sufficient for the account
  codes and field names the bot handles).
- A Python dict built from key-value pairs is an association list with the
  dict construction semantics: the first occurrence of a key fixes its
  position, a later pair with the same key overwrites the value in place
  (pyDictInsert / pyDictOfPairs below).  Lookup is pyLookup; a failing
  bracket lookup is modelled by getField returning Except.error (a
  KeyError propagating to the caller).
- Exception propagation is the Except monad: every function that can hit a
  KeyError returns Except String.  Sequential evaluation with
  short-circuit on the first raised error is mapME.
- itertools.groupby with the USER key is groupRunsE: the key function is
  applied to every element (raising if USER is absent) and elements are
  grouped into maximal adjacent runs of equal keys.
- time.strftime reads the wall clock; get_blocks therefore takes the
  current time as an explicit Timestamp argument.
-/

set_option maxRecDepth 4000

/-- One row of scheduler output: a Python dict from field name to field
value, as an association list in dict order. -/
abbrev Job := List (String × String)

/-- The configuration object, restricted to the two lookup tables the core
uses (the config file has further keys, e.g. slack credentials, that the
pipeline never reads). -/
structure Config where
  project_map : List (String × String)
  user_map : List (String × String)

/-- Python whitespace test used by str.strip. -/
def pyIsSpace (c : Char) : Bool :=
  c = ' ' || c = '\t' || c = '\n' || c = '\r' || c = '\x0b' || c = '\x0c'

/-- Python str.strip: drop leading and trailing whitespace. -/
def pyStrip (s : String) : String :=
  ⟨((s.data.dropWhile pyIsSpace).reverse.dropWhile pyIsSpace).reverse⟩

/-- Python str.split with a one-character separator, over character
lists.  Never returns the empty list; splitting the empty list yields
one empty piece, exactly as in Python. -/
def splitChar (c : Char) : List Char → List (List Char)
  | [] => [[]]
  | x :: xs =>
    if x = c then [] :: splitChar c xs
    else
      match splitChar c xs with
      | [] => [[x]]
      | w :: ws => (x :: w) :: ws

/-- Python str.split with a one-character separator. -/
def pySplit (c : Char) (s : String) : List String :=
  (splitChar c s.data).map (fun l => ⟨l⟩)

/-- Python str.upper (ASCII case map). -/
def pyUpper (s : String) : String :=
  ⟨s.data.map Char.toUpper⟩

/-- Python dict assignment d[k] = v: overwrite in place if the key is
present, append otherwise. -/
def pyDictInsert : List (String × String) → String → String → List (String × String)
  | [], k, v => [(k, v)]
  | p :: d, k, v => if p.1 = k then (k, v) :: d else p :: pyDictInsert d k v

/-- Python dict construction from a sequence of key-value pairs (a dict
comprehension over pairs): repeated insertion, so a later duplicate key
overwrites the value of the earlier one while keeping its position. -/
def pyDictOfPairs (ps : List (String × String)) : List (String × String) :=
  ps.foldl (fun d p => pyDictInsert d p.1 p.2) []

/-- Python dict read access: the value at the key, if present. -/
def pyLookup (d : List (String × String)) (k : String) : Option String :=
  (d.find? (fun p => p.1 = k)).map (fun p => p.2)

/-- Python bracket access d[k] on a record: the value, or a KeyError
surfaced in the Except monad. -/
def getField (j : Job) (k : String) : Except String String :=
  match pyLookup j k with
  | some v => Except.ok v
  | none => Except.error ("KeyError: " ++ k)

/-- parse_squeue_output (main.py lines 22-30): strip the raw text, split
into lines, take the first line as the pipe-separated header, and turn
every later line into a dict by zipping the header with its pipe-separated
fields.  The indexing lines[0] is the one operation that could raise, so
the result lives in Except; pySplit never returns an empty list, hence the
error branch is in fact unreachable. -/
def parse_squeue_output (output : String) : Except String (List Job) :=
  match pySplit '\n' (pyStrip output) with
  | [] => Except.error "IndexError: list index out of range"
  | hline :: rest =>
    Except.ok (rest.map (fun l => pyDictOfPairs ((pySplit '|' hline).zip (pySplit '|' l))))

/-- The inner helper of get_formatters (main.py lines 33-34, spelling of
the source kept): a closure formatting one fixed field of a record, whose
bracket lookup raises a KeyError when the field is absent. -/
def get_simple_formmatter (display_name : String) (field_name : String) : Job → Except String String :=
  fun j =>
    match getField j field_name with
    | Except.ok v => Except.ok (display_name ++ "：" ++ v)
    | Except.error e => Except.error e

/-- project_formatter (main.py lines 36-42): rebuild the project map with
upper-cased keys, upper-case the ACCOUNT value of the record, attach the
mapped label in parentheses when the upper-cased key is present, and wrap
the result in the fixed project line. -/
def project_formatter (config : Config) (job : Job) : Except String String :=
  let project_map := pyDictOfPairs (config.project_map.map (fun p => (pyUpper p.1, p.2)))
  match getField job "ACCOUNT" with
  | Except.error e => Except.error e
  | Except.ok a =>
    let x := pyUpper a
    let x := match pyLookup project_map x with
      | some label => x ++ "(" ++ label ++ ")"
      | none => x
    Except.ok ("📜 計畫ID：" ++ x)

/-- user_formatter (main.py lines 44-50): look the USER value up in the
user map as-is (case-sensitively), attach the label in parentheses when
present, and wrap the result in the fixed user line. -/
def user_formatter (config : Config) (job : Job) : Except String String :=
  match getField job "USER" with
  | Except.error e => Except.error e
  | Except.ok u =>
    let x := match pyLookup config.user_map u with
      | some label => u ++ "(" ++ label ++ ")"
      | none => u
    Except.ok ("🤪 使用者ID：" ++ x)

/-- get_formatters (main.py lines 52-61): the fixed enumeration of the
eight annotators, in source order. -/
def get_formatters (config : Config) : List (Job → Except String String) :=
  [get_simple_formmatter "🪪 任務ID" "JOBID",
   get_simple_formmatter "🛠️ 任務名稱" "NAME",
   get_simple_formmatter "⚓ 分區名稱" "PARTITION",
   get_simple_formmatter "🖥️ 節點數量" "NODES",
   get_simple_formmatter "⏱ 開始時間" "START_TIME",
   get_simple_formmatter "⏳ 運行時間" "TIME",
   project_formatter config,
   user_formatter config]

/-- The six display-label and field-name pairs of the simple annotators,
in the enumeration order of get_formatters. -/
def simpleFields : List (String × String) :=
  [("🪪 任務ID", "JOBID"),
   ("🛠️ 任務名稱", "NAME"),
   ("⚓ 分區名稱", "PARTITION"),
   ("🖥️ 節點數量", "NODES"),
   ("⏱ 開始時間", "START_TIME"),
   ("⏳ 運行時間", "TIME")]

/-- Sequential mapping in the Except monad: evaluate left to right and
propagate the first raised error, as Python exception flow does. -/
def mapME (f : α → Except String β) : List α → Except String (List β)
  | [] => Except.ok []
  | a :: l =>
    match f a with
    | Except.error e => Except.error e
    | Except.ok b =>
      match mapME f l with
      | Except.error e => Except.error e
      | Except.ok bs => Except.ok (b :: bs)

/-- Maximal adjacent runs of equal keys in a keyed list: the pure core of
itertools.groupby. -/
def runsBy : List (String × Job) → List (String × List Job)
  | [] => []
  | (u, j) :: rest =>
    match runsBy rest with
    | [] => [(u, [j])]
    | (u2, g) :: gs => if u = u2 then (u, j :: g) :: gs else (u, [j]) :: (u2, g) :: gs

/-- The key computation of the groupby call: pair a record with its USER
value, raising when the field is absent. -/
def userKeyed (j : Job) : Except String (String × Job) :=
  match getField j "USER" with
  | Except.error e => Except.error e
  | Except.ok u => Except.ok (u, j)

/-- itertools.groupby over the jobs with the USER key function (main.py
line 89): the key lookup job[USER] is applied to every record and can
raise; on success the records are grouped into maximal adjacent runs of
equal USER values, each run tagged with its key. -/
def groupRunsE (jobs : List Job) : Except String (List (String × List Job)) :=
  match mapME userKeyed jobs with
  | Except.error e => Except.error e
  | Except.ok ps => Except.ok (runsBy ps)

/-- One Slack block of the output payload, keeping exactly the content
the source writes into each block dict: the fixed-title header block, a
mrkdwn text section, a plain-text field-list section, or a divider. -/
inductive Block where
  | header (text : String)
  | sectionMrkdwn (text : String)
  | sectionFields (fields : List String)
  | divider
deriving DecidableEq

/-- The wall-clock time read by time.strftime, passed explicitly. -/
structure Timestamp where
  year : Nat
  month : Nat
  day : Nat
  hour : Nat
  minute : Nat
  second : Nat
deriving DecidableEq

/-- Zero padding to two digits, as the strftime numeric directives do. -/
def pad2 (n : Nat) : String :=
  if n < 10 then "0" ++ toString n else toString n

/-- strftime with the format string of main.py line 83. -/
def strftimeYmdHms (t : Timestamp) : String :=
  toString t.year ++ "/" ++ pad2 t.month ++ "/" ++ pad2 t.day ++ " " ++
    pad2 t.hour ++ ":" ++ pad2 t.minute ++ ":" ++ pad2 t.second

/-- The three fixed blocks opening every report (main.py lines 70-87):
the fixed-title header block, the check-time section, and a divider. -/
def preludeBlocks (t : Timestamp) : List Block :=
  [Block.header "📋 TWCC HPC 任務例行檢查",
   Block.sectionMrkdwn ("⌚ 檢查時間： *" ++ strftimeYmdHms t ++ "*"),
   Block.divider]

/-- The two blocks of one job (main.py lines 101-119): the title section,
whose text falls back to the fixed placeholder when the NAME value is
empty (the Python or on a falsy string), then the field-list section
holding every formatter applied in order. -/
def renderJob (config : Config) (j : Job) : Except String (List Block) :=
  match getField j "NAME" with
  | Except.error e => Except.error e
  | Except.ok name =>
    match mapME (fun f => f j) (get_formatters config) with
    | Except.error e => Except.error e
    | Except.ok fields =>
      Except.ok [Block.sectionMrkdwn ("🛠️ *" ++ (if name = "" then "_未命名_" else name) ++ "*"),
                 Block.sectionFields fields]

/-- The blocks of one user group (main.py lines 89-120): the user-label
section (label resolved through the user map, case-sensitively), the
blocks of every job of the run, then a divider. -/
def renderGroup (config : Config) (g : String × List Job) : Except String (List Block) :=
  match mapME (renderJob config) g.2 with
  | Except.error e => Except.error e
  | Except.ok jobBlocks =>
    Except.ok (Block.sectionMrkdwn ("🤪 *" ++
        (match pyLookup config.user_map g.1 with
         | some label => g.1 ++ "(" ++ label ++ ")"
         | none => g.1) ++ "* 有以下任務正在運行：") ::
      (jobBlocks.flatten ++ [Block.divider]))

/-- get_blocks (main.py lines 66-122): the fixed prelude followed by the
blocks of every maximal USER run, in input order; any KeyError raised by
the key lookup, the title lookup or a formatter aborts the whole call. -/
def get_blocks (jobs : List Job) (config : Config) (t : Timestamp) : Except String (List Block) :=
  match groupRunsE jobs with
  | Except.error e => Except.error e
  | Except.ok gs =>
    match mapME (renderGroup config) gs with
    | Except.error e => Except.error e
    | Except.ok bodies => Except.ok (preludeBlocks t ++ bodies.flatten)

/-- The value of a succeeded Except computation (the empty string is never
reached when the computation is known to succeed). -/
def exceptValue (e : Except String String) : String :=
  match e with
  | Except.ok v => v
  | Except.error _ => ""

/-- The two blocks renderJob produces when every lookup succeeds, written
as a total function of the record. -/
def jobBlocksOk (config : Config) (j : Job) : List Block :=
  [Block.sectionMrkdwn ("🛠️ *" ++
      (if (pyLookup j "NAME").getD "" = "" then "_未命名_" else (pyLookup j "NAME").getD "") ++ "*"),
   Block.sectionFields ((get_formatters config).map (fun f => exceptValue (f j)))]

/-- The blocks renderGroup produces when every lookup succeeds, written as
a total function of the run. -/
def groupBlocksOk (config : Config) (g : String × List Job) : List Block :=
  Block.sectionMrkdwn ("🤪 *" ++
      (match pyLookup config.user_map g.1 with
       | some label => g.1 ++ "(" ++ label ++ ")"
       | none => g.1) ++ "* 有以下任務正在運行：") ::
    ((g.2.map (jobBlocksOk config)).flatten ++ [Block.divider])

/-- The eight field names a record must carry for every annotator, the
grouping key lookup and the title lookup to succeed. -/
def requiredFields : List String :=
  ["JOBID", "NAME", "PARTITION", "NODES", "START_TIME", "TIME", "ACCOUNT", "USER"]

/-- The value attached to the last occurrence of a key in a pair
sequence: the reference description of the overwrite semantics of dict
construction, compared against pyDictOfPairs below. -/
def lastBinding (ps : List (String × String)) (k : String) : Option String :=
  (ps.reverse.find? (fun p => p.1 = k)).map (fun p => p.2)

/-- The block of a field-list section: the marker of one job node in the
assembled payload (every job contributes exactly one such block, so
counting them counts the job nodes). -/
def isJobFieldsBlock : Block → Bool
  | Block.sectionFields _ => true
  | _ => false

/-! Helper lemmas about the Python dict model. -/

theorem pyLookup_cons (a : String × String) (d : List (String × String)) (k : String) :
    pyLookup (a :: d) k = if a.1 = k then some a.2 else pyLookup d k := by
  by_cases h : a.1 = k <;> simp [pyLookup, List.find?_cons, h]

theorem pyDictInsert_lookup (d : List (String × String)) (k v k2 : String) :
    pyLookup (pyDictInsert d k v) k2 = if k2 = k then some v else pyLookup d k2 := by
  induction d with
  | nil =>
    rcases eq_or_ne k2 k with h | h
    · subst h; simp [pyDictInsert, pyLookup_cons]
    · simp [pyDictInsert, pyLookup_cons, h, h.symm, pyLookup]
  | cons p d ih =>
    rcases eq_or_ne p.1 k with hp | hp
    · subst hp
      simp only [pyDictInsert, if_pos rfl]
      rcases eq_or_ne k2 p.1 with h2 | h2
      · subst h2; simp [pyLookup_cons]
      · simp [pyLookup_cons, h2, h2.symm]
    · simp only [pyDictInsert, if_neg hp]
      rcases eq_or_ne p.1 k2 with h2 | h2
      · subst h2
        have hk : p.1 ≠ k := hp
        simp [pyLookup_cons, hk]
      · simp [pyLookup_cons, h2, ih]

theorem pyDictInsert_map_fst (d : List (String × String)) (k v : String) :
    (pyDictInsert d k v).map Prod.fst =
      if k ∈ d.map Prod.fst then d.map Prod.fst else d.map Prod.fst ++ [k] := by
  induction d with
  | nil => simp [pyDictInsert]
  | cons p d ih =>
    rcases eq_or_ne p.1 k with hp | hp
    · subst hp; simp [pyDictInsert]
    · have hne : k ≠ p.1 := hp.symm
      simp only [pyDictInsert, if_neg hp, List.map_cons, List.mem_cons, hne, false_or]
      by_cases hm : k ∈ d.map Prod.fst
      · simp [hm, ih]
      · simp [hm, ih]

theorem pyDictInsert_of_not_mem (d : List (String × String)) (k v : String)
    (h : k ∉ d.map Prod.fst) : pyDictInsert d k v = d ++ [(k, v)] := by
  induction d with
  | nil => simp [pyDictInsert]
  | cons p d ih =>
    simp only [List.map_cons, List.mem_cons, not_or] at h
    have h1 : p.1 ≠ k := fun h2 => h.1 h2.symm
    simp [pyDictInsert, h1, ih h.2]

theorem pyDictInsert_length_le (d : List (String × String)) (k v : String) :
    (pyDictInsert d k v).length ≤ d.length + 1 := by
  induction d with
  | nil => simp [pyDictInsert]
  | cons p d ih =>
    rcases eq_or_ne p.1 k with hp | hp
    · simp [pyDictInsert, hp]
    · simp only [pyDictInsert, if_neg hp, List.length_cons]
      omega

theorem pyDictOfPairs_concat (ps : List (String × String)) (p : String × String) :
    pyDictOfPairs (ps ++ [p]) = pyDictInsert (pyDictOfPairs ps) p.1 p.2 := by
  simp [pyDictOfPairs, List.foldl_append]

theorem pyDictOfPairs_nodup_fst (ps : List (String × String)) :
    ((pyDictOfPairs ps).map Prod.fst).Nodup := by
  induction ps using List.reverseRecOn with
  | nil => simp [pyDictOfPairs]
  | append_singleton ps p ih =>
    rw [pyDictOfPairs_concat, pyDictInsert_map_fst]
    by_cases hm : p.1 ∈ (pyDictOfPairs ps).map Prod.fst
    · simpa [hm] using ih
    · rw [if_neg hm]
      refine List.nodup_append.mpr ⟨ih, List.nodup_singleton _, ?_⟩
      intro a ha hb
      simp only [List.mem_singleton] at hb
      exact hm (hb ▸ ha)

theorem pyDictOfPairs_mem_fst (ps : List (String × String)) (k : String) :
    k ∈ (pyDictOfPairs ps).map Prod.fst ↔ k ∈ ps.map Prod.fst := by
  induction ps using List.reverseRecOn generalizing k with
  | nil => simp [pyDictOfPairs]
  | append_singleton ps p ih =>
    rw [pyDictOfPairs_concat, pyDictInsert_map_fst]
    simp only [List.map_append, List.map_cons, List.map_nil, List.mem_append,
      List.mem_singleton]
    by_cases hm : p.1 ∈ (pyDictOfPairs ps).map Prod.fst
    · rw [if_pos hm, ih]
      constructor
      · exact fun h => Or.inl h
      · rintro (h | h)
        · exact h
        · exact h ▸ (ih p.1).mp hm
    · rw [if_neg hm]
      simp [ih]

theorem pyLookup_pyDictOfPairs (ps : List (String × String)) (k : String) :
    pyLookup (pyDictOfPairs ps) k = lastBinding ps k := by
  induction ps using List.reverseRecOn with
  | nil => rfl
  | append_singleton ps p ih =>
    rw [pyDictOfPairs_concat, pyDictInsert_lookup, ih]
    simp only [lastBinding, List.reverse_append, List.reverse_cons, List.reverse_nil,
      List.nil_append, List.singleton_append, List.find?_cons]
    rcases eq_or_ne k p.1 with h | h
    · subst h; simp
    · simp [h, h.symm]

theorem pyDictOfPairs_eq_self (ps : List (String × String))
    (h : (ps.map Prod.fst).Nodup) : pyDictOfPairs ps = ps := by
  induction ps using List.reverseRecOn with
  | nil => rfl
  | append_singleton ps p ih =>
    rw [List.map_append] at h
    have h1 : (ps.map Prod.fst).Nodup := (List.nodup_append.mp h).1
    have h3 : p.1 ∉ ps.map Prod.fst := by
      intro hm
      exact (List.nodup_append.mp h).2.2 hm (by simp)
    have h4 : p.1 ∉ (pyDictOfPairs ps).map Prod.fst := by
      rw [ih h1]; exact h3
    rw [pyDictOfPairs_concat, pyDictInsert_of_not_mem _ _ _ h4, ih h1]

theorem pyDictOfPairs_length_le (ps : List (String × String)) :
    (pyDictOfPairs ps).length ≤ ps.length := by
  induction ps using List.reverseRecOn with
  | nil => simp [pyDictOfPairs]
  | append_singleton ps p ih =>
    rw [pyDictOfPairs_concat]
    calc (pyDictInsert (pyDictOfPairs ps) p.1 p.2).length
        ≤ (pyDictOfPairs ps).length + 1 := pyDictInsert_length_le _ _ _
      _ ≤ ps.length + 1 := by omega
      _ = (ps ++ [p]).length := by simp

theorem pyLookup_getElem_of_nodup (ps : List (String × String))
    (h : (ps.map Prod.fst).Nodup) (i : Nat) (hi : i < ps.length) :
    pyLookup ps ps[i].1 = some ps[i].2 := by
  induction ps generalizing i with
  | nil => simp at hi
  | cons p ps ih =>
    simp only [List.map_cons, List.nodup_cons] at h
    match i with
    | 0 => simp [pyLookup_cons]
    | Nat.succ n =>
      have hn : n < ps.length := by simpa using hi
      have hne : p.1 ≠ ps[n].1 := by
        intro he
        exact h.1 (he ▸ List.mem_map_of_mem Prod.fst (ps.getElem_mem hn))
      simp [pyLookup_cons, hne, ih h.2 n hn]

/-! Helper lemmas about splitting, zipping and the Except-level map. -/

theorem splitChar_ne_nil (c : Char) (l : List Char) : splitChar c l ≠ [] := by
  cases l with
  | nil => simp [splitChar]
  | cons x xs =>
    rcases eq_or_ne x c with h | h
    · simp [splitChar, h]
    · simp only [splitChar, if_neg h]
      cases hr : splitChar c xs <;> simp

theorem pySplit_ne_nil (c : Char) (s : String) : pySplit c s ≠ [] := by
  intro h
  unfold pySplit at h
  exact splitChar_ne_nil c s.data (List.map_eq_nil_iff.mp h)

theorem zip_map_fst_take (l1 : List String) (l2 : List String) :
    (l1.zip l2).map Prod.fst = l1.take l2.length := by
  induction l1 generalizing l2 with
  | nil => simp
  | cons a l1 ih =>
    cases l2 with
    | nil => simp
    | cons b l2 => simp [ih]

theorem zip_eq_zip_take (l1 : List String) (l2 : List String) :
    l1.zip l2 = l1.zip (l2.take l1.length) := by
  induction l1 generalizing l2 with
  | nil => simp
  | cons a l1 ih =>
    cases l2 with
    | nil => simp
    | cons b l2 =>
      simp only [List.zip_cons_cons, List.length_cons, List.take_succ_cons]
      rw [← ih l2]

theorem mapME_ok_length (f : α → Except String β) (l : List α) (ys : List β)
    (h : mapME f l = Except.ok ys) : ys.length = l.length := by
  induction l generalizing ys with
  | nil => simp [mapME] at h; simp [← h]
  | cons a l ih =>
    simp only [mapME] at h
    cases hf : f a with
    | error e => rw [hf] at h; exact absurd h (by simp)
    | ok b =>
      rw [hf] at h
      cases hm : mapME f l with
      | error e => rw [hm] at h; exact absurd h (by simp)
      | ok bs =>
        rw [hm] at h
        simp only [Except.ok.injEq] at h
        subst h
        simp [ih bs hm]

theorem mapME_ok_of_forall (f : α → Except String β) (g : α → β) (l : List α)
    (h : ∀ a ∈ l, f a = Except.ok (g a)) : mapME f l = Except.ok (l.map g) := by
  induction l with
  | nil => rfl
  | cons a l ih =>
    have ha := h a (by simp)
    have hl : ∀ a2 ∈ l, f a2 = Except.ok (g a2) := fun a2 h2 => h a2 (by simp [h2])
    simp [mapME, ha, ih hl]

theorem mapME_ok_mem (f : α → Except String β) (l : List α) (ys : List β)
    (h : mapME f l = Except.ok ys) : ∀ b ∈ ys, ∃ a ∈ l, f a = Except.ok b := by
  induction l generalizing ys with
  | nil =>
    simp only [mapME, Except.ok.injEq] at h
    subst h
    simp
  | cons a l ih =>
    simp only [mapME] at h
    cases hf : f a with
    | error e => rw [hf] at h; exact absurd h (by simp)
    | ok b =>
      rw [hf] at h
      cases hm : mapME f l with
      | error e => rw [hm] at h; exact absurd h (by simp)
      | ok bs =>
        rw [hm] at h
        simp only [Except.ok.injEq] at h
        subst h
        intro b2 hb2
        rcases List.mem_cons.mp hb2 with h2 | h2
        · exact ⟨a, by simp, h2 ▸ hf⟩
        · obtain ⟨a2, ha2, hfa2⟩ := ih bs hm b2 h2
          exact ⟨a2, by simp [ha2], hfa2⟩

theorem mapME_ok_forall (f : α → Except String β) (l : List α) (ys : List β)
    (h : mapME f l = Except.ok ys) : ∀ a ∈ l, ∃ b, f a = Except.ok b := by
  induction l generalizing ys with
  | nil => simp
  | cons a l ih =>
    simp only [mapME] at h
    cases hf : f a with
    | error e => rw [hf] at h; exact absurd h (by simp)
    | ok b =>
      rw [hf] at h
      cases hm : mapME f l with
      | error e => rw [hm] at h; exact absurd h (by simp)
      | ok bs =>
        intro a2 ha2
        rcases List.mem_cons.mp ha2 with h2 | h2
        · exact ⟨b, h2 ▸ hf⟩
        · exact ih bs hm a2 h2

theorem userKeyed_ok (j : Job) (p : String × Job) (h : userKeyed j = Except.ok p) :
    p.2 = j ∧ getField j "USER" = Except.ok p.1 := by
  unfold userKeyed at h
  cases hg : getField j "USER" with
  | error e => rw [hg] at h; exact absurd h (by simp)
  | ok u =>
    rw [hg] at h
    have h2 : (u, j) = p := by simpa using h
    rw [← h2]
    refine ⟨rfl, ?_⟩
    simp [hg]

theorem mapME_userKeyed_snd (jobs : List Job) (ps : List (String × Job))
    (h : mapME userKeyed jobs = Except.ok ps) : ps.map Prod.snd = jobs := by
  induction jobs generalizing ps with
  | nil => simp [mapME] at h; simp [← h]
  | cons j jobs ih =>
    simp only [mapME] at h
    cases hf : userKeyed j with
    | error e => rw [hf] at h; exact absurd h (by simp)
    | ok p =>
      rw [hf] at h
      cases hm : mapME userKeyed jobs with
      | error e => rw [hm] at h; exact absurd h (by simp)
      | ok qs =>
        rw [hm] at h
        simp only [Except.ok.injEq] at h
        subst h
        simp [(userKeyed_ok j p hf).1, ih qs hm]

/-! Helper lemmas about the run grouping. -/

theorem runsBy_cons (u : String) (j : Job) (ps : List (String × Job)) :
    runsBy ((u, j) :: ps) =
      match runsBy ps with
      | [] => [(u, [j])]
      | (u2, g) :: gs => if u = u2 then (u, j :: g) :: gs else (u, [j]) :: (u2, g) :: gs := rfl

theorem runsBy_flatten (ps : List (String × Job)) :
    ((runsBy ps).map Prod.snd).flatten = ps.map Prod.snd := by
  induction ps with
  | nil => rfl
  | cons q ps ih =>
    obtain ⟨u, j⟩ := q
    rw [runsBy_cons]
    cases hr : runsBy ps with
    | nil =>
      rw [hr] at ih
      simp only [List.map_nil, List.flatten_nil] at ih
      simp [← ih]
    | cons g gs =>
      obtain ⟨u2, g2⟩ := g
      rw [hr] at ih
      rcases eq_or_ne u u2 with h | h
      · subst h
        simp only [if_pos rfl]
        simp only [List.map_cons, List.flatten_cons] at ih ⊢
        simp [← ih]
      · simp only [if_neg h]
        simp only [List.map_cons, List.flatten_cons] at ih ⊢
        simp [← ih]

theorem runsBy_cons_nil (u : String) (j : Job) (ps : List (String × Job))
    (h : runsBy ps = []) : runsBy ((u, j) :: ps) = [(u, [j])] := by
  rw [runsBy_cons, h]

theorem runsBy_cons_cons (u : String) (j : Job) (u2 : String) (g2 : List Job)
    (gs : List (String × List Job)) (ps : List (String × Job))
    (h : runsBy ps = (u2, g2) :: gs) :
    runsBy ((u, j) :: ps) =
      if u = u2 then (u, j :: g2) :: gs else (u, [j]) :: (u2, g2) :: gs := by
  rw [runsBy_cons, h]

theorem runsBy_mem (ps : List (String × Job)) (p : String × List Job)
    (h : p ∈ runsBy ps) : p.2 ≠ [] ∧ ∀ j ∈ p.2, (p.1, j) ∈ ps := by
  induction ps generalizing p with
  | nil => simp [runsBy] at h
  | cons q ps ih =>
    obtain ⟨u, j⟩ := q
    cases hr : runsBy ps with
    | nil =>
      rw [runsBy_cons_nil u j ps hr] at h
      simp only [List.mem_singleton] at h
      subst h
      refine ⟨by simp, ?_⟩
      intro j2 hj2
      simp only [List.mem_singleton] at hj2
      simp [hj2]
    | cons g gs =>
      obtain ⟨u2, g2⟩ := g
      rw [runsBy_cons_cons u j u2 g2 gs ps hr] at h
      rcases eq_or_ne u u2 with he | he
      · subst he
        rw [if_pos rfl] at h
        rcases List.mem_cons.mp h with h2 | h2
        · subst h2
          refine ⟨by simp, ?_⟩
          intro j2 hj2
          rcases List.mem_cons.mp hj2 with h3 | h3
          · simp [h3]
          · have hmem : (u, g2) ∈ runsBy ps := by
              rw [hr]; exact List.mem_cons_self _ _
            have := (ih (u, g2) hmem).2 j2 h3
            exact List.mem_cons_of_mem _ this
        · have hmem : p ∈ runsBy ps := by
            rw [hr]; exact List.mem_cons_of_mem _ h2
          have := ih p hmem
          exact ⟨this.1, fun j2 hj2 => List.mem_cons_of_mem _ (this.2 j2 hj2)⟩
      · rw [if_neg he] at h
        rcases List.mem_cons.mp h with h2 | h2
        · subst h2
          refine ⟨by simp, ?_⟩
          intro j2 hj2
          simp only [List.mem_singleton] at hj2
          simp [hj2]
        · have hmem : p ∈ runsBy ps := by rw [hr]; exact h2
          have := ih p hmem
          exact ⟨this.1, fun j2 hj2 => List.mem_cons_of_mem _ (this.2 j2 hj2)⟩

theorem runsBy_chain (ps : List (String × Job)) :
    List.Chain' (fun a b => a.1 ≠ b.1) (runsBy ps) := by
  induction ps with
  | nil => simp [runsBy]
  | cons q ps ih =>
    obtain ⟨u, j⟩ := q
    cases hr : runsBy ps with
    | nil =>
      rw [runsBy_cons_nil u j ps hr]
      simp
    | cons g gs =>
      obtain ⟨u2, g2⟩ := g
      rw [hr] at ih
      rw [runsBy_cons_cons u j u2 g2 gs ps hr]
      rcases eq_or_ne u u2 with he | he
      · subst he
        rw [if_pos rfl]
        rcases List.chain'_cons'.mp ih with ⟨h1, h2⟩
        exact List.chain'_cons'.mpr ⟨h1, h2⟩
      · rw [if_neg he]
        refine List.chain'_cons'.mpr ⟨?_, ih⟩
        intro y hy
        simp only [List.head?_cons, Option.mem_def, Option.some.injEq] at hy
        subst hy
        exact he

/-! Helper lemmas about the rendering layer. -/

theorem parse_of_split (output : String) (hline : String) (dlines : List String)
    (hsplit : pySplit '\n' (pyStrip output) = hline :: dlines) :
    parse_squeue_output output =
      Except.ok (dlines.map (fun l =>
        pyDictOfPairs ((pySplit '|' hline).zip (pySplit '|' l)))) := by
  unfold parse_squeue_output
  rw [hsplit]

theorem getField_ok_of_isSome (j : Job) (k : String) (h : (pyLookup j k).isSome) :
    getField j k = Except.ok ((pyLookup j k).getD "") := by
  unfold getField
  cases hv : pyLookup j k with
  | none => rw [hv] at h; simp at h
  | some v => simp

theorem getField_error_of_none (j : Job) (k : String) (h : pyLookup j k = none) :
    getField j k = Except.error ("KeyError: " ++ k) := by
  unfold getField
  rw [h]

theorem exceptValue_ok (e : Except String String) (v : String)
    (h : e = Except.ok v) : e = Except.ok (exceptValue e) := by
  subst h
  rfl

theorem simple_formatter_ok (d f : String) (j : Job) (h : (pyLookup j f).isSome) :
    get_simple_formmatter d f j = Except.ok (d ++ "：" ++ (pyLookup j f).getD "") := by
  unfold get_simple_formmatter
  rw [getField_ok_of_isSome j f h]

theorem project_formatter_ok (config : Config) (j : Job)
    (h : (pyLookup j "ACCOUNT").isSome) :
    project_formatter config j = Except.ok ("📜 計畫ID：" ++
      (match pyLookup (pyDictOfPairs (config.project_map.map (fun p => (pyUpper p.1, p.2))))
          (pyUpper ((pyLookup j "ACCOUNT").getD "")) with
       | some label => pyUpper ((pyLookup j "ACCOUNT").getD "") ++ "(" ++ label ++ ")"
       | none => pyUpper ((pyLookup j "ACCOUNT").getD ""))) := by
  unfold project_formatter
  rw [getField_ok_of_isSome j "ACCOUNT" h]

theorem user_formatter_ok (config : Config) (j : Job)
    (h : (pyLookup j "USER").isSome) :
    user_formatter config j = Except.ok ("🤪 使用者ID：" ++
      (match pyLookup config.user_map ((pyLookup j "USER").getD "") with
       | some label => (pyLookup j "USER").getD "" ++ "(" ++ label ++ ")"
       | none => (pyLookup j "USER").getD "")) := by
  unfold user_formatter
  rw [getField_ok_of_isSome j "USER" h]

theorem formatter_ok_of_fields (config : Config) (j : Job)
    (hf : ∀ f ∈ requiredFields, (pyLookup j f).isSome) :
    ∀ fm ∈ get_formatters config, fm j = Except.ok (exceptValue (fm j)) := by
  intro fm hfm
  have hJOBID : (pyLookup j "JOBID").isSome := hf _ (by simp [requiredFields])
  have hNAME : (pyLookup j "NAME").isSome := hf _ (by simp [requiredFields])
  have hPARTITION : (pyLookup j "PARTITION").isSome := hf _ (by simp [requiredFields])
  have hNODES : (pyLookup j "NODES").isSome := hf _ (by simp [requiredFields])
  have hSTART : (pyLookup j "START_TIME").isSome := hf _ (by simp [requiredFields])
  have hTIME : (pyLookup j "TIME").isSome := hf _ (by simp [requiredFields])
  have hACCOUNT : (pyLookup j "ACCOUNT").isSome := hf _ (by simp [requiredFields])
  have hUSER : (pyLookup j "USER").isSome := hf _ (by simp [requiredFields])
  simp only [get_formatters, List.mem_cons, List.not_mem_nil, or_false] at hfm
  rcases hfm with h | h | h | h | h | h | h | h <;> subst h
  · exact exceptValue_ok _ _ (simple_formatter_ok _ _ j hJOBID)
  · exact exceptValue_ok _ _ (simple_formatter_ok _ _ j hNAME)
  · exact exceptValue_ok _ _ (simple_formatter_ok _ _ j hPARTITION)
  · exact exceptValue_ok _ _ (simple_formatter_ok _ _ j hNODES)
  · exact exceptValue_ok _ _ (simple_formatter_ok _ _ j hSTART)
  · exact exceptValue_ok _ _ (simple_formatter_ok _ _ j hTIME)
  · exact exceptValue_ok _ _ (project_formatter_ok config j hACCOUNT)
  · exact exceptValue_ok _ _ (user_formatter_ok config j hUSER)

theorem renderJob_ok (config : Config) (j : Job)
    (hf : ∀ f ∈ requiredFields, (pyLookup j f).isSome) :
    renderJob config j = Except.ok (jobBlocksOk config j) := by
  unfold renderJob
  have hNAME : (pyLookup j "NAME").isSome := hf _ (by simp [requiredFields])
  rw [getField_ok_of_isSome j "NAME" hNAME,
    mapME_ok_of_forall (fun f => f j) (fun f => exceptValue (f j)) (get_formatters config)
      (fun fm hfm => formatter_ok_of_fields config j hf fm hfm)]
  rfl

theorem renderGroup_ok (config : Config) (g : String × List Job)
    (hf : ∀ j ∈ g.2, ∀ f ∈ requiredFields, (pyLookup j f).isSome) :
    renderGroup config g = Except.ok (groupBlocksOk config g) := by
  unfold renderGroup
  rw [mapME_ok_of_forall (renderJob config) (jobBlocksOk config) g.2
    (fun j hj => renderJob_ok config j (hf j hj))]
  rfl

theorem renderJob_count (config : Config) (j : Job) (bs : List Block)
    (h : renderJob config j = Except.ok bs) : bs.countP isJobFieldsBlock = 1 := by
  unfold renderJob at h
  cases hn : getField j "NAME" with
  | error e => rw [hn] at h; exact absurd h (by simp)
  | ok name =>
    rw [hn] at h
    cases hm : mapME (fun f => f j) (get_formatters config) with
    | error e => rw [hm] at h; exact absurd h (by simp)
    | ok fields =>
      rw [hm] at h
      simp only [Except.ok.injEq] at h
      subst h
      simp [isJobFieldsBlock, List.countP_cons]

theorem mapME_renderJob_count (config : Config) (js : List Job)
    (jbs : List (List Block)) (h : mapME (renderJob config) js = Except.ok jbs) :
    (jbs.flatten).countP isJobFieldsBlock = js.length := by
  induction js generalizing jbs with
  | nil =>
    simp only [mapME, Except.ok.injEq] at h
    subst h
    simp
  | cons j js ih =>
    simp only [mapME] at h
    cases hf : renderJob config j with
    | error e => rw [hf] at h; exact absurd h (by simp)
    | ok bs =>
      rw [hf] at h
      cases hm : mapME (renderJob config) js with
      | error e => rw [hm] at h; exact absurd h (by simp)
      | ok rest =>
        rw [hm] at h
        simp only [Except.ok.injEq] at h
        subst h
        simp only [List.flatten_cons, List.countP_append, List.length_cons,
          renderJob_count config j bs hf, ih rest hm]
        omega

theorem renderGroup_count (config : Config) (g : String × List Job) (bs : List Block)
    (h : renderGroup config g = Except.ok bs) : bs.countP isJobFieldsBlock = g.2.length := by
  unfold renderGroup at h
  cases hm : mapME (renderJob config) g.2 with
  | error e => rw [hm] at h; exact absurd h (by simp)
  | ok jobBlocks =>
    rw [hm] at h
    simp only [Except.ok.injEq] at h
    subst h
    simp [List.countP_cons, List.countP_append, isJobFieldsBlock,
      mapME_renderJob_count config g.2 jobBlocks hm]

theorem mapME_renderGroup_count (config : Config) (gs : List (String × List Job))
    (bodies : List (List Block)) (h : mapME (renderGroup config) gs = Except.ok bodies) :
    (bodies.flatten).countP isJobFieldsBlock = ((gs.map Prod.snd).flatten).length := by
  induction gs generalizing bodies with
  | nil =>
    simp only [mapME, Except.ok.injEq] at h
    subst h
    simp
  | cons g gs ih =>
    simp only [mapME] at h
    cases hf : renderGroup config g with
    | error e => rw [hf] at h; exact absurd h (by simp)
    | ok bs =>
      rw [hf] at h
      cases hm : mapME (renderGroup config) gs with
      | error e => rw [hm] at h; exact absurd h (by simp)
      | ok rest =>
        rw [hm] at h
        simp only [Except.ok.injEq] at h
        subst h
        simp only [List.flatten_cons, List.countP_append, List.map_cons,
          List.length_append, renderGroup_count config g bs hf, ih rest hm]

theorem simple_mem_formatters (config : Config) (df : String × String)
    (h : df ∈ simpleFields) :
    get_simple_formmatter df.1 df.2 ∈ get_formatters config := by
  fin_cases h <;> simp [get_formatters]

theorem countP_preludeBlocks (t : Timestamp) :
    (preludeBlocks t).countP isJobFieldsBlock = 0 := by
  simp [preludeBlocks, List.countP_cons, isJobFieldsBlock]

theorem dedup_length_lt_of_not_nodup (l : List String) (h : ¬ l.Nodup) :
    l.dedup.length < l.length := by
  rcases Nat.lt_or_ge l.dedup.length l.length with hlt | hge
  · exact hlt
  · have hle := (List.dedup_sublist l).length_le
    have heq : l.dedup.length = l.length := le_antisymm hle hge
    have hdl := (List.dedup_sublist l).eq_of_length heq
    exact absurd (hdl ▸ l.nodup_dedup) h

/-! Claim theorems. -/

/-- C1 (amended): for input consisting of a header line and N data lines
where every data line has the same number of pipe-delimited fields as the
header, and provided the header field names are pairwise distinct,
parse_squeue_output returns exactly N records, each an ordered mapping
whose key sequence is exactly the header field-name sequence, with the
i-th field of each data line bound to the i-th header name. -/
theorem parse_wellformed_records (output : String) (hline : String) (dlines : List String)
    (hsplit : pySplit '\n' (pyStrip output) = hline :: dlines)
    (hnodup : (pySplit '|' hline).Nodup)
    (hlen : ∀ l ∈ dlines, (pySplit '|' l).length = (pySplit '|' hline).length) :
    parse_squeue_output output =
      Except.ok (dlines.map (fun l => (pySplit '|' hline).zip (pySplit '|' l))) ∧
    (dlines.map (fun l => (pySplit '|' hline).zip (pySplit '|' l))).length = dlines.length ∧
    (∀ l ∈ dlines,
      ((pySplit '|' hline).zip (pySplit '|' l)).map Prod.fst = pySplit '|' hline) ∧
    (∀ l ∈ dlines, ∀ i, (h1 : i < (pySplit '|' hline).length) →
      (h2 : i < (pySplit '|' l).length) →
      pyLookup ((pySplit '|' hline).zip (pySplit '|' l)) ((pySplit '|' hline)[i]) =
        some ((pySplit '|' l)[i])) := by
  have hfst : ∀ l ∈ dlines,
      ((pySplit '|' hline).zip (pySplit '|' l)).map Prod.fst = pySplit '|' hline := by
    intro l hl
    rw [zip_map_fst_take, hlen l hl, List.take_length]
  have hrec : ∀ l ∈ dlines,
      pyDictOfPairs ((pySplit '|' hline).zip (pySplit '|' l)) =
        (pySplit '|' hline).zip (pySplit '|' l) := by
    intro l hl
    exact pyDictOfPairs_eq_self _ ((hfst l hl).symm ▸ hnodup)
  refine ⟨?_, by simp, hfst, ?_⟩
  · rw [parse_of_split output hline dlines hsplit]
    congr 1
    exact List.map_congr_left hrec
  · intro l hl i h1 h2
    have hzlen : i < ((pySplit '|' hline).zip (pySplit '|' l)).length := by
      rw [List.length_zip]
      omega
    have := pyLookup_getElem_of_nodup ((pySplit '|' hline).zip (pySplit '|' l))
      ((hfst l hl).symm ▸ hnodup) i hzlen
    rwa [List.getElem_zip] at this

/-- C1 witness: a two-column header with one matching data row. -/
theorem parse_wellformed_records_witness :
    parse_squeue_output "A|B\n1|2" =
      Except.ok (["1|2"].map (fun l => (pySplit '|' "A|B").zip (pySplit '|' l))) ∧
    (["1|2"].map (fun l => (pySplit '|' "A|B").zip (pySplit '|' l))).length =
      ["1|2"].length ∧
    (∀ l ∈ ["1|2"],
      ((pySplit '|' "A|B").zip (pySplit '|' l)).map Prod.fst = pySplit '|' "A|B") ∧
    (∀ l ∈ ["1|2"], ∀ i, (h1 : i < (pySplit '|' "A|B").length) →
      (h2 : i < (pySplit '|' l).length) →
      pyLookup ((pySplit '|' "A|B").zip (pySplit '|' l)) ((pySplit '|' "A|B")[i]) =
        some ((pySplit '|' l)[i])) :=
  parse_wellformed_records "A|B\n1|2" "A|B" ["1|2"] rfl (by decide) (by decide)

/-- C1 counterexample: with the duplicated header A|A and the matching
data row 1|2 (two fields each), the parsed record has a single entry and
does not bind the first header position to the first field. -/
theorem parse_wellformed_counterexample :
    parse_squeue_output "A|A\n1|2" = Except.ok [[("A", "2")]] ∧
    (pySplit '|' "A|A").length = 2 ∧
    (pySplit '|' "1|2").length = 2 ∧
    [("A", "2")].length = 1 ∧
    pyLookup [("A", "2")] "A" ≠ some "1" := by
  refine ⟨rfl, rfl, rfl, rfl, ?_⟩
  decide

/-- C2 (amended): parse_squeue_output never raises for any raw input at
all, the empty input included; the empty string acts as the header line
and yields zero records, so no failure is ever propagated to the caller. -/
theorem parse_never_raises (output : String) :
    ∃ jobs, parse_squeue_output output = Except.ok jobs := by
  cases hsplit : pySplit '\n' (pyStrip output) with
  | nil => exact absurd hsplit (pySplit_ne_nil '\n' (pyStrip output))
  | cons hline rest => exact ⟨_, parse_of_split output hline rest hsplit⟩

/-- C2 counterexample: on the empty raw input the parser does not fail:
it returns the empty record list. -/
theorem parse_empty_input_counterexample : parse_squeue_output "" = Except.ok [] := rfl

/-- C3 (amended): a data line whose field count differs from the header
still produces a record without raising; a shorter line yields a record
with fewer entries than the header, while a longer line is truncated by
the positional zip to the header length: the record equals the record of
the line truncated to the header length, carries at most min(header, row)
entries, and exactly that many when the header names are distinct, so a
longer row never yields extra entries. -/
theorem parse_row_mismatch (output : String) (hline : String) (dlines : List String)
    (hsplit : pySplit '\n' (pyStrip output) = hline :: dlines) :
    (∃ jobs, parse_squeue_output output = Except.ok jobs ∧ jobs.length = dlines.length) ∧
    (∀ l ∈ dlines,
      pyDictOfPairs ((pySplit '|' hline).zip (pySplit '|' l)) =
        pyDictOfPairs ((pySplit '|' hline).zip
          ((pySplit '|' l).take (pySplit '|' hline).length)) ∧
      (pyDictOfPairs ((pySplit '|' hline).zip (pySplit '|' l))).length ≤
        min (pySplit '|' hline).length (pySplit '|' l).length) ∧
    ((pySplit '|' hline).Nodup → ∀ l ∈ dlines,
      (pyDictOfPairs ((pySplit '|' hline).zip (pySplit '|' l))).length =
        min (pySplit '|' hline).length (pySplit '|' l).length) := by
  refine ⟨⟨_, parse_of_split output hline dlines hsplit, by simp⟩, ?_, ?_⟩
  · intro l hl
    constructor
    · rw [← zip_eq_zip_take]
    · calc (pyDictOfPairs ((pySplit '|' hline).zip (pySplit '|' l))).length
          ≤ ((pySplit '|' hline).zip (pySplit '|' l)).length := pyDictOfPairs_length_le _
        _ = min (pySplit '|' hline).length (pySplit '|' l).length := List.length_zip _ _
  · intro hnodup l hl
    have hfst : ((pySplit '|' hline).zip (pySplit '|' l)).map Prod.fst =
        (pySplit '|' hline).take (pySplit '|' l).length := zip_map_fst_take _ _
    have hnd : (((pySplit '|' hline).zip (pySplit '|' l)).map Prod.fst).Nodup := by
      rw [hfst]
      exact hnodup.sublist (List.take_sublist _ _)
    rw [pyDictOfPairs_eq_self _ hnd, List.length_zip]

/-- C3 witness: a header with one short and one long data row. -/
theorem parse_row_mismatch_witness :
    (∃ jobs, parse_squeue_output "A|B\nx\n1|2|3" = Except.ok jobs ∧
      jobs.length = ["x", "1|2|3"].length) ∧
    (∀ l ∈ ["x", "1|2|3"],
      pyDictOfPairs ((pySplit '|' "A|B").zip (pySplit '|' l)) =
        pyDictOfPairs ((pySplit '|' "A|B").zip
          ((pySplit '|' l).take (pySplit '|' "A|B").length)) ∧
      (pyDictOfPairs ((pySplit '|' "A|B").zip (pySplit '|' l))).length ≤
        min (pySplit '|' "A|B").length (pySplit '|' l).length) ∧
    ((pySplit '|' "A|B").Nodup → ∀ l ∈ ["x", "1|2|3"],
      (pyDictOfPairs ((pySplit '|' "A|B").zip (pySplit '|' l))).length =
        min (pySplit '|' "A|B").length (pySplit '|' l).length) :=
  parse_row_mismatch "A|B\nx\n1|2|3" "A|B" ["x", "1|2|3"] rfl

/-- C3 counterexample: a data line longer than the header does not yield
a record with extra entries beyond the header field set: the extra field
is discarded and the record has exactly the header count of entries. -/
theorem parse_long_row_counterexample :
    parse_squeue_output "A|B\n1|2|3" = Except.ok [[("A", "1"), ("B", "2")]] ∧
    (pySplit '|' "A|B").length = 2 ∧
    (pySplit '|' "1|2|3").length = 3 ∧
    [("A", "1"), ("B", "2")].length = 2 :=
  ⟨rfl, rfl, rfl, rfl⟩

/-- C10: when the header line contains duplicate column names, every
parsed record collapses those columns into a single entry holding the
value from the last such column position present in the data line (the
lookup of any key is the last binding of the zipped pairs), and for a row
whose field count matches the header the record entry count is strictly
less than the header column count. -/
theorem duplicate_header_collapse (output : String) (hline : String) (dlines : List String)
    (hsplit : pySplit '\n' (pyStrip output) = hline :: dlines)
    (hdup : ¬ (pySplit '|' hline).Nodup) :
    parse_squeue_output output =
      Except.ok (dlines.map (fun l =>
        pyDictOfPairs ((pySplit '|' hline).zip (pySplit '|' l)))) ∧
    (∀ l ∈ dlines, ∀ k,
      pyLookup (pyDictOfPairs ((pySplit '|' hline).zip (pySplit '|' l))) k =
        lastBinding ((pySplit '|' hline).zip (pySplit '|' l)) k) ∧
    (∀ l ∈ dlines, (pySplit '|' l).length = (pySplit '|' hline).length →
      (pyDictOfPairs ((pySplit '|' hline).zip (pySplit '|' l))).length <
        (pySplit '|' hline).length) := by
  refine ⟨parse_of_split output hline dlines hsplit, ?_, ?_⟩
  · intro l hl k
    exact pyLookup_pyDictOfPairs _ k
  · intro l hl hlen
    have hfst : ((pySplit '|' hline).zip (pySplit '|' l)).map Prod.fst =
        pySplit '|' hline := by
      rw [zip_map_fst_take, hlen, List.take_length]
    have hnd := pyDictOfPairs_nodup_fst ((pySplit '|' hline).zip (pySplit '|' l))
    have hmem : ∀ k, k ∈ (pyDictOfPairs ((pySplit '|' hline).zip
        (pySplit '|' l))).map Prod.fst ↔ k ∈ pySplit '|' hline := by
      intro k
      rw [pyDictOfPairs_mem_fst, hfst]
    have hcardeq : ((pyDictOfPairs ((pySplit '|' hline).zip
        (pySplit '|' l))).map Prod.fst).toFinset = (pySplit '|' hline).toFinset := by
      ext k
      simp only [List.mem_toFinset]
      exact hmem k
    have hlen2 : (pyDictOfPairs ((pySplit '|' hline).zip (pySplit '|' l))).length =
        ((pyDictOfPairs ((pySplit '|' hline).zip (pySplit '|' l))).map Prod.fst).length := by
      simp
    rw [hlen2, ← List.toFinset_card_of_nodup hnd, hcardeq, List.card_toFinset]
    exact dedup_length_lt_of_not_nodup _ hdup

/-- C10 witness: the duplicated header A|A with the matching row 1|2. -/
theorem duplicate_header_collapse_witness :
    parse_squeue_output "A|A\n1|2" =
      Except.ok (["1|2"].map (fun l =>
        pyDictOfPairs ((pySplit '|' "A|A").zip (pySplit '|' l)))) ∧
    (∀ l ∈ ["1|2"], ∀ k,
      pyLookup (pyDictOfPairs ((pySplit '|' "A|A").zip (pySplit '|' l))) k =
        lastBinding ((pySplit '|' "A|A").zip (pySplit '|' l)) k) ∧
    (∀ l ∈ ["1|2"], (pySplit '|' l).length = (pySplit '|' "A|A").length →
      (pyDictOfPairs ((pySplit '|' "A|A").zip (pySplit '|' l))).length <
        (pySplit '|' "A|A").length) :=
  duplicate_header_collapse "A|A\n1|2" "A|A" ["1|2"] rfl (by decide)

/-- C4: grouping of records by the USER field is contiguous run-length
grouping, not a global re-bucketing: the groups concatenate back to the
input sequence in order, every group is a nonempty run of records all
carrying the group key as USER value, and adjacent groups carry distinct
keys (which together force adjacent records of equal USER into one group
and separated runs of the same USER into distinct groups); in particular
the sequence alice, bob, alice yields three groups in that order. -/
theorem grouping_contiguous_runs :
    (∀ (jobs : List Job) (gs : List (String × List Job)),
      groupRunsE jobs = Except.ok gs →
      ((gs.map Prod.snd).flatten = jobs ∧
       (∀ g ∈ gs, g.2 ≠ [] ∧ ∀ j ∈ g.2, getField j "USER" = Except.ok g.1) ∧
       List.Chain' (fun a b => a.1 ≠ b.1) gs)) ∧
    groupRunsE [[("USER", "alice")], [("USER", "bob")], [("USER", "alice")]] =
      Except.ok [("alice", [[("USER", "alice")]]), ("bob", [[("USER", "bob")]]),
        ("alice", [[("USER", "alice")]])] := by
  constructor
  · intro jobs gs hg
    unfold groupRunsE at hg
    cases hm : mapME userKeyed jobs with
    | error e => rw [hm] at hg; exact absurd hg (by simp)
    | ok ps =>
      rw [hm] at hg
      simp only [Except.ok.injEq] at hg
      subst hg
      refine ⟨?_, ?_, runsBy_chain ps⟩
      · rw [runsBy_flatten ps, mapME_userKeyed_snd jobs ps hm]
      · intro g hgm
        obtain ⟨hne, hmem⟩ := runsBy_mem ps g hgm
        refine ⟨hne, ?_⟩
        intro j hj
        obtain ⟨a, ha, hka⟩ := mapME_ok_mem userKeyed jobs ps hm (g.1, j) (hmem j hj)
        have hok := userKeyed_ok a (g.1, j) hka
        rw [show j = a from hok.1]
        exact hok.2
  · rfl

/-- C4 witness: the alice, bob, alice sequence instantiating the general
part of the theorem. -/
theorem grouping_contiguous_runs_witness :
    (([("alice", [[("USER", "alice")]]), ("bob", [[("USER", "bob")]]),
        ("alice", [[("USER", "alice")]])].map Prod.snd).flatten =
      [[("USER", "alice")], [("USER", "bob")], [("USER", "alice")]] ∧
     (∀ g ∈ [("alice", [[("USER", "alice")]]), ("bob", [[("USER", "bob")]]),
        ("alice", [[("USER", "alice")]])],
        g.2 ≠ [] ∧ ∀ j ∈ g.2, getField j "USER" = Except.ok g.1) ∧
     List.Chain' (fun a b => a.1 ≠ b.1)
       [("alice", [[("USER", "alice")]]), ("bob", [[("USER", "bob")]]),
        ("alice", [[("USER", "alice")]])]) :=
  grouping_contiguous_runs.1
    [[("USER", "alice")], [("USER", "bob")], [("USER", "alice")]]
    [("alice", [[("USER", "alice")]]), ("bob", [[("USER", "bob")]]),
      ("alice", [[("USER", "alice")]])] rfl

/-- C5: the report builder performs no filtering: whenever get_blocks
succeeds, the total number of job field-list blocks across the whole
output (one per job node) equals the number of input records. -/
theorem builder_no_filtering (jobs : List Job) (config : Config) (t : Timestamp)
    (blocks : List Block) (h : get_blocks jobs config t = Except.ok blocks) :
    blocks.countP isJobFieldsBlock = jobs.length := by
  unfold get_blocks at h
  cases hg : groupRunsE jobs with
  | error e => rw [hg] at h; exact absurd h (by simp)
  | ok gs =>
    rw [hg] at h
    have h2 : (match mapME (renderGroup config) gs with
        | Except.error e => Except.error e
        | Except.ok bodies => Except.ok (preludeBlocks t ++ bodies.flatten)) =
        Except.ok blocks := h
    cases hb : mapME (renderGroup config) gs with
    | error e => rw [hb] at h2; exact absurd h2 (by simp)
    | ok bodies =>
      rw [hb] at h2
      simp only [Except.ok.injEq] at h2
      subst h2
      rw [List.countP_append, countP_preludeBlocks,
        mapME_renderGroup_count config gs bodies hb]
      unfold groupRunsE at hg
      cases hm : mapME userKeyed jobs with
      | error e => rw [hm] at hg; exact absurd hg (by simp)
      | ok ps =>
        rw [hm] at hg
        simp only [Except.ok.injEq] at hg
        subst hg
        rw [runsBy_flatten ps, mapME_userKeyed_snd jobs ps hm]
        omega

/-- C5 witness: one record produces exactly one field-list block. -/
theorem builder_no_filtering_witness :
    List.countP isJobFieldsBlock
      (preludeBlocks ⟨2026, 10, 12, 0, 0, 0⟩ ++
        [Block.sectionMrkdwn "🤪 *alice* 有以下任務正在運行：",
         Block.sectionMrkdwn "🛠️ *_未命名_*",
         Block.sectionFields ["🪪 任務ID：1", "🛠️ 任務名稱：", "⚓ 分區名稱：p",
           "🖥️ 節點數量：2", "⏱ 開始時間：s", "⏳ 運行時間：t",
           "📜 計畫ID：ABC(Lab)", "🤪 使用者ID：alice"],
         Block.divider]) =
      [[("USER", "alice"), ("NAME", ""), ("JOBID", "1"), ("PARTITION", "p"),
        ("NODES", "2"), ("START_TIME", "s"), ("TIME", "t"), ("ACCOUNT", "abc")]].length :=
  builder_no_filtering
    [[("USER", "alice"), ("NAME", ""), ("JOBID", "1"), ("PARTITION", "p"),
      ("NODES", "2"), ("START_TIME", "s"), ("TIME", "t"), ("ACCOUNT", "abc")]]
    ⟨[("ABC", "Lab")], []⟩ ⟨2026, 10, 12, 0, 0, 0⟩
    (preludeBlocks ⟨2026, 10, 12, 0, 0, 0⟩ ++
      [Block.sectionMrkdwn "🤪 *alice* 有以下任務正在運行：",
       Block.sectionMrkdwn "🛠️ *_未命名_*",
       Block.sectionFields ["🪪 任務ID：1", "🛠️ 任務名稱：", "⚓ 分區名稱：p",
         "🖥️ 節點數量：2", "⏱ 開始時間：s", "⏳ 運行時間：t",
         "📜 計畫ID：ABC(Lab)", "🤪 使用者ID：alice"],
       Block.divider]) rfl

theorem project_formatter_eq (config : Config) (job : Job) (a : String)
    (h : getField job "ACCOUNT" = Except.ok a) :
    project_formatter config job = Except.ok ("📜 計畫ID：" ++
      (match pyLookup (pyDictOfPairs (config.project_map.map (fun p => (pyUpper p.1, p.2))))
          (pyUpper a) with
       | some label => pyUpper a ++ "(" ++ label ++ ")"
       | none => pyUpper a)) := by
  unfold project_formatter
  rw [h]

/-- C6: the project annotator upper-cases the ACCOUNT value and looks it
up against the upper-cased project-map keys; when a mapping exists it
renders the upper-cased account followed by the label in parentheses,
otherwise the upper-cased account alone, always wrapped in the fixed
project line; consequently two accounts with equal upper-casings resolve
identically, whether the table key is ABC or abc. -/
theorem project_annotator_case_insensitive :
    (∀ (config : Config) (job : Job) (a : String),
      getField job "ACCOUNT" = Except.ok a →
      project_formatter config job = Except.ok ("📜 計畫ID：" ++
        (match pyLookup (pyDictOfPairs
            (config.project_map.map (fun p => (pyUpper p.1, p.2)))) (pyUpper a) with
         | some label => pyUpper a ++ "(" ++ label ++ ")"
         | none => pyUpper a))) ∧
    (∀ (config : Config) (j1 j2 : Job) (a1 a2 : String),
      getField j1 "ACCOUNT" = Except.ok a1 → getField j2 "ACCOUNT" = Except.ok a2 →
      pyUpper a1 = pyUpper a2 →
      project_formatter config j1 = project_formatter config j2) ∧
    project_formatter ⟨[("ABC", "Lab")], []⟩ [("ACCOUNT", "abc")] =
      Except.ok "📜 計畫ID：ABC(Lab)" ∧
    project_formatter ⟨[("ABC", "Lab")], []⟩ [("ACCOUNT", "ABC")] =
      Except.ok "📜 計畫ID：ABC(Lab)" ∧
    project_formatter ⟨[("abc", "Lab")], []⟩ [("ACCOUNT", "abc")] =
      Except.ok "📜 計畫ID：ABC(Lab)" ∧
    project_formatter ⟨[("abc", "Lab")], []⟩ [("ACCOUNT", "ABC")] =
      Except.ok "📜 計畫ID：ABC(Lab)" := by
  refine ⟨project_formatter_eq, ?_, rfl, rfl, rfl, rfl⟩
  intro config j1 j2 a1 a2 h1 h2 hup
  rw [project_formatter_eq config j1 a1 h1, project_formatter_eq config j2 a2 h2, hup]

/-- C6 witness: a record with lower-case account against an upper-case
table key. -/
theorem project_annotator_case_insensitive_witness :
    project_formatter ⟨[("ABC", "Lab")], []⟩ [("ACCOUNT", "abc")] =
      Except.ok ("📜 計畫ID：" ++
        (match pyLookup (pyDictOfPairs
            ([("ABC", "Lab")].map (fun p => (pyUpper p.1, p.2)))) (pyUpper "abc") with
         | some label => pyUpper "abc" ++ "(" ++ label ++ ")"
         | none => pyUpper "abc")) :=
  project_annotator_case_insensitive.1 ⟨[("ABC", "Lab")], []⟩ [("ACCOUNT", "abc")] "abc" rfl

/-- C7: unknown identifiers and empty names are recoverable fallbacks,
never errors: a USER value absent from the user map (exact, case
sensitive lookup) is displayed as the raw id both by the user annotator
and in the group header, an ACCOUNT value absent from the upper-cased
project map is displayed without a label, and an empty NAME value makes
the job title section carry the fixed unnamed placeholder instead of the
empty string. -/
theorem fallback_display_no_error :
    (∀ (config : Config) (job : Job) (u : String),
      getField job "USER" = Except.ok u → pyLookup config.user_map u = none →
      user_formatter config job = Except.ok ("🤪 使用者ID：" ++ u)) ∧
    (∀ (config : Config) (job : Job) (a : String),
      getField job "ACCOUNT" = Except.ok a →
      pyLookup (pyDictOfPairs
        (config.project_map.map (fun p => (pyUpper p.1, p.2)))) (pyUpper a) = none →
      project_formatter config job = Except.ok ("📜 計畫ID：" ++ pyUpper a)) ∧
    (∀ (config : Config) (g : String × List Job) (bs : List Block),
      pyLookup config.user_map g.1 = none → renderGroup config g = Except.ok bs →
      bs.head? = some (Block.sectionMrkdwn ("🤪 *" ++ g.1 ++ "* 有以下任務正在運行："))) ∧
    (∀ (config : Config) (job : Job) (bs : List Block),
      pyLookup job "NAME" = some "" → renderJob config job = Except.ok bs →
      bs.head? = some (Block.sectionMrkdwn "🛠️ *_未命名_*")) := by
  refine ⟨?_, ?_, ?_, ?_⟩
  · intro config job u h hnone
    simp [user_formatter, h, hnone]
  · intro config job a h hnone
    simp [project_formatter, h, hnone]
  · intro config g bs hnone h
    unfold renderGroup at h
    cases hm : mapME (renderJob config) g.2 with
    | error e => rw [hm] at h; exact absurd h (by simp)
    | ok jobBlocks =>
      rw [hm] at h
      simp only [Except.ok.injEq] at h
      subst h
      simp [hnone]
  · intro config job bs hname h
    have hgf : getField job "NAME" = Except.ok "" := by
      unfold getField
      rw [hname]
    unfold renderJob at h
    rw [hgf] at h
    cases hm : mapME (fun f => f job) (get_formatters config) with
    | error e => rw [hm] at h; exact absurd h (by simp)
    | ok fields =>
      rw [hm] at h
      simp only [Except.ok.injEq] at h
      subst h
      rfl

/-- C7 witness: an unmapped user, an unmapped account and an empty name
all fall back without an error. -/
theorem fallback_display_no_error_witness :
    user_formatter ⟨[], []⟩ [("USER", "alice")] =
      Except.ok ("🤪 使用者ID：" ++ "alice") ∧
    project_formatter ⟨[], []⟩ [("ACCOUNT", "abc")] =
      Except.ok ("📜 計畫ID：" ++ pyUpper "abc") ∧
    List.head? [Block.sectionMrkdwn "🛠️ *_未命名_*",
        Block.sectionFields ["🪪 任務ID：1", "🛠️ 任務名稱：", "⚓ 分區名稱：p",
          "🖥️ 節點數量：2", "⏱ 開始時間：s", "⏳ 運行時間：t",
          "📜 計畫ID：ABC", "🤪 使用者ID：alice"]] =
      some (Block.sectionMrkdwn "🛠️ *_未命名_*") :=
  ⟨fallback_display_no_error.1 ⟨[], []⟩ [("USER", "alice")] "alice" rfl rfl,
   fallback_display_no_error.2.1 ⟨[], []⟩ [("ACCOUNT", "abc")] "abc" rfl rfl,
   fallback_display_no_error.2.2.2 ⟨[], []⟩
     [("USER", "alice"), ("NAME", ""), ("JOBID", "1"), ("PARTITION", "p"),
      ("NODES", "2"), ("START_TIME", "s"), ("TIME", "t"), ("ACCOUNT", "abc")]
     [Block.sectionMrkdwn "🛠️ *_未命名_*",
      Block.sectionFields ["🪪 任務ID：1", "🛠️ 任務名稱：", "⚓ 分區名稱：p",
        "🖥️ 節點數量：2", "⏱ 開始時間：s", "⏳ 運行時間：t",
        "📜 計畫ID：ABC", "🤪 使用者ID：alice"]] rfl rfl⟩

/-- C8: a record missing a field named by one of the six simple
annotators makes that annotator raise a missing-key error, and such a
record anywhere in the input prevents get_blocks from ever succeeding:
the failure propagates and aborts the whole report, the field is never
silently omitted or defaulted. -/
theorem missing_field_fails_loudly :
    (∀ (j : Job) (d f : String), (d, f) ∈ simpleFields → pyLookup j f = none →
      get_simple_formmatter d f j = Except.error ("KeyError: " ++ f)) ∧
    (∀ (jobs : List Job) (config : Config) (t : Timestamp) (blocks : List Block),
      (∃ j ∈ jobs, ∃ df ∈ simpleFields, pyLookup j df.2 = none) →
      get_blocks jobs config t ≠ Except.ok blocks) := by
  constructor
  · intro j d f hmem hnone
    unfold get_simple_formmatter
    rw [getField_error_of_none j f hnone]
  · intro jobs config t blocks hex hok
    obtain ⟨j, hj, df, hdf, hnone⟩ := hex
    unfold get_blocks at hok
    cases hg : groupRunsE jobs with
    | error e => rw [hg] at hok; exact absurd hok (by simp)
    | ok gs =>
      rw [hg] at hok
      have h2 : (match mapME (renderGroup config) gs with
          | Except.error e => Except.error e
          | Except.ok bodies => Except.ok (preludeBlocks t ++ bodies.flatten)) =
          Except.ok blocks := hok
      cases hb : mapME (renderGroup config) gs with
      | error e => rw [hb] at h2; exact absurd h2 (by simp)
      | ok bodies =>
        unfold groupRunsE at hg
        cases hm : mapME userKeyed jobs with
        | error e => rw [hm] at hg; exact absurd hg (by simp)
        | ok ps =>
          rw [hm] at hg
          simp only [Except.ok.injEq] at hg
          subst hg
          have hjin : j ∈ ((runsBy ps).map Prod.snd).flatten := by
            rw [runsBy_flatten ps, mapME_userKeyed_snd jobs ps hm]
            exact hj
          rw [List.mem_flatten] at hjin
          obtain ⟨gjobs, hgj, hjg⟩ := hjin
          rw [List.mem_map] at hgj
          obtain ⟨g, hgmem, hgsnd⟩ := hgj
          have hjg2 : j ∈ g.2 := by rw [hgsnd]; exact hjg
          obtain ⟨body, hbody⟩ :=
            mapME_ok_forall (renderGroup config) (runsBy ps) bodies hb g hgmem
          unfold renderGroup at hbody
          cases hmj : mapME (renderJob config) g.2 with
          | error e => rw [hmj] at hbody; exact absurd hbody (by simp)
          | ok jbs =>
            obtain ⟨jb, hjb⟩ :=
              mapME_ok_forall (renderJob config) g.2 jbs hmj j hjg2
            unfold renderJob at hjb
            cases hn : getField j "NAME" with
            | error e => rw [hn] at hjb; exact absurd hjb (by simp)
            | ok nm =>
              rw [hn] at hjb
              cases hfm : mapME (fun f => f j) (get_formatters config) with
              | error e => rw [hfm] at hjb; exact absurd hjb (by simp)
              | ok fields =>
                obtain ⟨v, hv⟩ :=
                  mapME_ok_forall (fun f => f j) (get_formatters config) fields hfm
                    (get_simple_formmatter df.1 df.2)
                    (simple_mem_formatters config df hdf)
                unfold get_simple_formmatter at hv
                rw [getField_error_of_none j df.2 hnone] at hv
                exact absurd hv (by simp)

/-- C8 witness: a record with no JOBID field makes the job-id annotator
raise, and a record list containing it can never render. -/
theorem missing_field_fails_loudly_witness :
    get_simple_formmatter "🪪 任務ID" "JOBID" [("USER", "alice")] =
      Except.error ("KeyError: " ++ "JOBID") ∧
    get_blocks [[("USER", "alice")]] ⟨[], []⟩ ⟨2026, 10, 12, 0, 0, 0⟩ ≠
      Except.ok [] :=
  ⟨missing_field_fails_loudly.1 [("USER", "alice")] "🪪 任務ID" "JOBID"
     (by decide) rfl,
   missing_field_fails_loudly.2 [[("USER", "alice")]] ⟨[], []⟩
     ⟨2026, 10, 12, 0, 0, 0⟩ []
     ⟨[("USER", "alice")], by decide, ("🪪 任務ID", "JOBID"), by decide, rfl⟩⟩

/-- C9: the assembled report is, in order, the fixed-title header block
with the timestamp section formatted as YYYY/MM/DD HH:MM:SS and a
divider, then for every user group in order a user-label section
followed, for each job of the group, by a title section and the field
list of all eight annotators in their fixed enumeration order, and a
closing divider per group; for an empty record sequence the report holds
exactly the prelude blocks. -/
theorem report_block_structure :
    (∀ (jobs : List Job) (config : Config) (t : Timestamp)
      (gs : List (String × List Job)),
      groupRunsE jobs = Except.ok gs →
      (∀ j ∈ jobs, ∀ f ∈ requiredFields, (pyLookup j f).isSome) →
      get_blocks jobs config t =
        Except.ok (preludeBlocks t ++ (gs.map (groupBlocksOk config)).flatten)) ∧
    (∀ (config : Config) (t : Timestamp),
      get_blocks [] config t = Except.ok (preludeBlocks t)) := by
  constructor
  · intro jobs config t gs hg hf
    have hmem : ∀ g ∈ gs, ∀ j ∈ g.2, j ∈ jobs := by
      unfold groupRunsE at hg
      cases hm : mapME userKeyed jobs with
      | error e => rw [hm] at hg; exact absurd hg (by simp)
      | ok ps =>
        rw [hm] at hg
        simp only [Except.ok.injEq] at hg
        subst hg
        intro g hgm j hj
        have hp := (runsBy_mem ps g hgm).2 j hj
        have : j ∈ ps.map Prod.snd := by
          rw [List.mem_map]
          exact ⟨(g.1, j), hp, rfl⟩
        rw [mapME_userKeyed_snd jobs ps hm] at this
        exact this
    unfold get_blocks
    rw [hg]
    show (match mapME (renderGroup config) gs with
        | Except.error e => Except.error e
        | Except.ok bodies => Except.ok (preludeBlocks t ++ bodies.flatten)) =
      Except.ok (preludeBlocks t ++ (gs.map (groupBlocksOk config)).flatten)
    rw [mapME_ok_of_forall (renderGroup config) (groupBlocksOk config) gs
      (fun g hgm => renderGroup_ok config g (fun j hj => hf j (hmem g hgm j hj)))]
  · intro config t
    simp [get_blocks, groupRunsE, mapME, runsBy]

/-- C9 witness: one record, one group, with the literal output shape. -/
theorem report_block_structure_witness :
    get_blocks
      [[("USER", "alice"), ("NAME", ""), ("JOBID", "1"), ("PARTITION", "p"),
        ("NODES", "2"), ("START_TIME", "s"), ("TIME", "t"), ("ACCOUNT", "abc")]]
      ⟨[("ABC", "Lab")], []⟩ ⟨2026, 10, 12, 0, 0, 0⟩ =
      Except.ok (preludeBlocks ⟨2026, 10, 12, 0, 0, 0⟩ ++
        ([("alice",
            [[("USER", "alice"), ("NAME", ""), ("JOBID", "1"), ("PARTITION", "p"),
              ("NODES", "2"), ("START_TIME", "s"), ("TIME", "t"),
              ("ACCOUNT", "abc")]])].map
          (groupBlocksOk ⟨[("ABC", "Lab")], []⟩)).flatten) :=
  report_block_structure.1
    [[("USER", "alice"), ("NAME", ""), ("JOBID", "1"), ("PARTITION", "p"),
      ("NODES", "2"), ("START_TIME", "s"), ("TIME", "t"), ("ACCOUNT", "abc")]]
    ⟨[("ABC", "Lab")], []⟩ ⟨2026, 10, 12, 0, 0, 0⟩
    [("alice",
       [[("USER", "alice"), ("NAME", ""), ("JOBID", "1"), ("PARTITION", "p"),
         ("NODES", "2"), ("START_TIME", "s"), ("TIME", "t"), ("ACCOUNT", "abc")]])]
    rfl (by decide)

